import Mathlib

/-!
Shallow embedding of the App Store reviews scraper (src/commentsE.py).

The script has three pure cores that the claims talk about:
  * extract_app_id      : resolve an app identifier from a raw id or a URL;
  * parse_reviews       : turn feed entries into review rows;
  * main                : page loop, pandas drop_duplicates, to_datetime
                          coercion of the published_at column, to_excel export.
Network fetching is abstracted as a function from page numbers to the rows
that page parses to; the pandas DataFrame is modelled by its column list and
row list, which is what the script observes of it (a DataFrame built from an
empty list of records has no columns, so selecting the published_at column
on it raises a KeyError).  The to_datetime parser is an arbitrary function
into Option, with none standing for the NaT missing marker.
-/

/-- Python str.strip on a character list: drop whitespace from both ends. -/
def pyStrip (l : List Char) : List Char :=
  ((l.dropWhile Char.isWhitespace).reverse.dropWhile Char.isWhitespace).reverse

/-- Python str.strip on strings. -/
def strip (s : String) : String :=
  String.mk (pyStrip s.data)

/-- Python str.isdigit: nonempty and every character a digit. -/
def pyIsDigit (s : String) : Bool :=
  !s.data.isEmpty && s.data.all Char.isDigit

/-- Attempt to match the regex id(\d+) at the head of the list: the literal
characters i and d followed by a maximal nonempty run of digits. -/
def matchIdHere (l : List Char) : Option (List Char) :=
  match l with
  | c1 :: c2 :: rest =>
    if c1 = 'i' ∧ c2 = 'd' then
      let ds := rest.takeWhile Char.isDigit
      if ds.isEmpty then none else some ds
    else none
  | _ => none

/-- re.search of id(\d+): try to match at each position left to right and
return the first capture group. -/
def searchIdDigits : List Char → Option (List Char)
  | [] => none
  | c :: cs =>
    match matchIdHere (c :: cs) with
    | some ds => some ds
    | none => searchIdDigits cs

/-- extract_app_id from src/commentsE.py: strip the input, return it when it
is all digits, otherwise search for an embedded id(\d+) pattern and return
the digits, otherwise raise ValueError. -/
def extract_app_id (url_or_id : String) : Except String String :=
  let s := strip url_or_id
  if pyIsDigit s then .ok s
  else
    match searchIdDigits s.data with
    | some ds => .ok (String.mk ds)
    | none => .error "Cannot extract App ID from input."

/-- Digit run of a Python integer literal after an optional first digit:
digits with single underscores allowed between digits. -/
def intDigitsTail : List Char → Bool
  | [] => true
  | '_' :: rest =>
    match rest with
    | c :: cs => c.isDigit && intDigitsTail cs
    | [] => false
  | c :: cs => c.isDigit && intDigitsTail cs

/-- A valid unsigned Python integer literal body: a digit followed by digits
with optional single underscores between them. -/
def intDigitsOk : List Char → Bool
  | [] => false
  | c :: cs => c.isDigit && intDigitsTail cs

/-- Numeric value of a list of decimal digits. -/
def digitsVal (l : List Char) : Nat :=
  l.foldl (fun a c => a * 10 + (c.toNat - 48)) 0

/-- Python int applied to a string: strip surrounding whitespace, allow an
optional sign, then a digit run with optional underscore separators; any
other shape raises ValueError, modelled as none. -/
def pyInt (s : String) : Option Int :=
  match pyStrip s.data with
  | '+' :: rest =>
    if intDigitsOk rest then some (Int.ofNat (digitsVal (rest.filter fun c => c ≠ '_'))) else none
  | '-' :: rest =>
    if intDigitsOk rest then some (-(Int.ofNat (digitsVal (rest.filter fun c => c ≠ '_')))) else none
  | l =>
    if intDigitsOk l then some (Int.ofNat (digitsVal (l.filter fun c => c ≠ '_'))) else none

/-- One atom feed entry as the parser observes it through findtext: each
field is the text of the corresponding element, none when the element is
absent.  An element that is present but empty yields some of the empty
string. -/
structure Entry where
  rating : Option String
  authorName : Option String
  updated : Option String
  published : Option String
  title : Option String
  content : Option String
deriving DecidableEq

/-- One review row as built by parse_reviews. -/
structure Row where
  username : String
  published_at : String
  rating : Int
  title : String
  content : String
deriving DecidableEq

/-- Python `a or b` on findtext results: none and the empty string are both
falsy and fall through to b. -/
def pyOr (a b : Option String) : Option String :=
  match a with
  | some s => if s.isEmpty then b else some s
  | none => b

/-- Python `a or \x22\x22`: the string value of a findtext result, empty when
the element is absent or its text is empty. -/
def orEmpty (a : Option String) : String :=
  (pyOr a (some "")).getD ""

/-- The row dict built for one rating-bearing entry, given the converted
integer rating. -/
def mkRow (e : Entry) (n : Int) : Row :=
  { username := strip (orEmpty e.authorName)
  , published_at := strip (orEmpty (pyOr e.updated e.published))
  , rating := n
  , title := strip (orEmpty e.title)
  , content := strip (orEmpty e.content) }

/-- parse_reviews from src/commentsE.py: skip entries with no rating
element, convert the rating text with int (a failing conversion raises
ValueError and aborts the whole document), and build one row per remaining
entry in document order. -/
def parse_reviews (entries : List Entry) : Except String (List Row) :=
  match entries with
  | [] => .ok []
  | e :: es =>
    match e.rating with
    | none => parse_reviews es
    | some rs =>
      match pyInt (strip rs) with
      | none => .error ("invalid literal for int with base 10: " ++ strip rs)
      | some n =>
        match parse_reviews es with
        | .error msg => .error msg
        | .ok rest => .ok (mkRow e n :: rest)

/-- Whether an entry has no rating text or rating text that int accepts;
parse_reviews succeeds on a document exactly when every entry satisfies
this. -/
def ratingParses (e : Entry) : Bool :=
  match e.rating with
  | none => true
  | some rs => (pyInt (strip rs)).isSome

/-- The row parse_reviews would produce for a single entry, none when the
entry is skipped or its rating text does not convert. -/
def rowOfEntry (e : Entry) : Option Row :=
  match e.rating with
  | none => none
  | some rs =>
    match pyInt (strip rs) with
    | none => none
    | some n => some (mkRow e n)

/-- pandas drop_duplicates kernel: walk the list keeping the first
occurrence of each element. -/
def dropDupAux {α : Type} [DecidableEq α] (seen : List α) : List α → List α
  | [] => []
  | x :: xs => if x ∈ seen then dropDupAux seen xs else x :: dropDupAux (x :: seen) xs

/-- pandas DataFrame.drop_duplicates on a row list: keep first occurrences,
preserving order. -/
def drop_duplicates {α : Type} [DecidableEq α] (l : List α) : List α :=
  dropDupAux [] l

/-- The column names of the review table. -/
def REVIEW_COLUMNS : List String :=
  ["username", "published_at", "rating", "title", "content"]

/-- A pandas DataFrame as the script observes it: its columns and its rows. -/
structure PdFrame (ρ : Type) where
  cols : List String
  rows : List ρ
deriving DecidableEq

/-- pd.DataFrame built from a list of review dicts: the five review columns
when the list is nonempty, and no columns at all when it is empty. -/
def pdDataFrame (l : List Row) : PdFrame Row :=
  { cols := if l.isEmpty then [] else REVIEW_COLUMNS, rows := l }

/-- DataFrame.drop_duplicates: dedupe the rows, keep the columns. -/
def frameDropDuplicates (df : PdFrame Row) : PdFrame Row :=
  { cols := df.cols, rows := drop_duplicates df.rows }

/-- A review row after the published_at column has been coerced with
pd.to_datetime: the timestamp is a parsed value or the NaT marker none. -/
structure OutRow (D : Type) where
  username : String
  published_at : Option D
  rating : Int
  title : String
  content : String
deriving DecidableEq

/-- Coerce one row with the given timestamp parser; a value the parser
rejects becomes the missing marker none, never an error. -/
def coerceRow {D : Type} (parse : String → Option D) (r : Row) : OutRow D :=
  { username := r.username
  , published_at := parse r.published_at
  , rating := r.rating
  , title := r.title
  , content := r.content }

/-- The assignment df[published_at] = pd.to_datetime(df[published_at], ...):
reading the column raises a KeyError when the frame does not have it, which
happens exactly when the frame was built from no records; otherwise every
value is coerced, with errors=coerce mapping unparseable values to NaT. -/
def coercePublishedAt {D : Type} (parse : String → Option D) (df : PdFrame Row) :
    Except String (PdFrame (OutRow D)) :=
  if "published_at" ∈ df.cols then
    .ok { cols := df.cols, rows := df.rows.map (coerceRow parse) }
  else .error "KeyError: published_at"

/-- One spreadsheet cell. -/
inductive Cell (D : Type) where
  | str (s : String)
  | intVal (n : Int)
  | dateVal (d : Option D)
deriving DecidableEq

/-- The five data cells of one exported row, in column order. -/
def rowCells {D : Type} (r : OutRow D) : List (Cell D) :=
  [Cell.str r.username, Cell.dateVal r.published_at, Cell.intVal r.rating,
   Cell.str r.title, Cell.str r.content]

/-- The written spreadsheet: a header line and the data cell grid. -/
structure Sheet (D : Type) where
  header : List String
  cells : List (List (Cell D))
deriving DecidableEq

/-- DataFrame.to_excel: when index is true a row-index column is prepended,
with index=false the sheet holds exactly the data columns. -/
def to_excel {D : Type} (index : Bool) (df : PdFrame (OutRow D)) : Sheet D :=
  { header := (if index then [""] else []) ++ df.cols
  , cells := df.rows.enum.map fun p =>
      (if index then [Cell.intVal (Int.ofNat p.1)] else []) ++ rowCells p.2 }

/-- Config constant from src/commentsE.py. -/
def APP_URL : String :=
  "https://apps.apple.com/us/app/meitu-ai-photo-video-editor/id416048305"

/-- Config constant from src/commentsE.py. -/
def MAX_PAGES : Nat := 10

/-- Config constant from src/commentsE.py. -/
def OUTPUT_FILE : String := "meitu_gb_reviews.xlsx"

/-- The page loop of main, with the fetch-and-parse of one page abstracted
as the function pages (fetch or parse failures abort the whole run and are
outside this model).  Returns the page numbers fetched and the accumulated
rows: fetch the current page, stop when it parses to no rows, otherwise
append and continue while fuel remains. -/
def fetchLoop (pages : Nat → List Row) (page : Nat) : Nat → List Nat × List Row
  | 0 => ([], [])
  | fuel + 1 =>
    let reviews := pages page
    if reviews = [] then ([page], [])
    else
      let rest := fetchLoop pages (page + 1) fuel
      (page :: rest.1, reviews ++ rest.2)

/-- The loop `for page in range(1, MAX_PAGES + 1)` of main. -/
def runLoop (pages : Nat → List Row) : List Nat × List Row :=
  fetchLoop pages 1 MAX_PAGES

/-- The outcome of one run: the output path written and the sheet content. -/
structure RunResult (D : Type) where
  outputFile : String
  sheet : Sheet D
deriving DecidableEq

/-- main from src/commentsE.py: resolve the app id, run the page loop,
build a DataFrame, drop duplicate rows, coerce the published_at column, and
export to the configured file without an index column. -/
def mainRun {D : Type} (parse : String → Option D) (pages : Nat → List Row) :
    Except String (RunResult D) :=
  match extract_app_id APP_URL with
  | .error msg => .error msg
  | .ok _appId =>
    let all_reviews := (runLoop pages).2
    let df := frameDropDuplicates (pdDataFrame all_reviews)
    match coercePublishedAt parse df with
    | .error msg => .error msg
    | .ok df2 => .ok { outputFile := OUTPUT_FILE, sheet := to_excel false df2 }

deriving instance DecidableEq for Except

/-- A timestamp parser that rejects every string, for concrete runs. -/
def noParse : String → Option Unit := fun _ => none

/-- Sample review row. -/
def rA : Row :=
  { username := "ann", published_at := "2024-05-06T07:08:09Z", rating := 5
  , title := "good", content := "works" }

/-- Sample review row differing from rA in one field. -/
def rB : Row :=
  { username := "ann", published_at := "2024-05-06T07:08:09Z", rating := 4
  , title := "good", content := "works" }

/-- Concrete page results: fifty copies of rA on page one, nothing after. -/
def wPages : Nat → List Row := fun n => if n = 1 then List.replicate 50 rA else []

/-- Concrete page results with a duplicate inside page one. -/
def c1Pages : Nat → List Row := fun n => if n = 1 then [rA, rB, rA] else []

/-- Entry whose rating text is not an integer literal. -/
def badEntry : Entry :=
  { rating := some "five", authorName := none, updated := none
  , published := none, title := none, content := none }

/-- Entry whose rating text is a decimal fraction. -/
def fracEntry : Entry :=
  { rating := some "4.5", authorName := some "bob", updated := none
  , published := none, title := none, content := none }

/-- Feed metadata entry: no rating element. -/
def metaEntry : Entry :=
  { rating := none, authorName := some "feed", updated := some "2024-01-01"
  , published := none, title := some "meta", content := none }

/-- Ordinary review entry. -/
def goodEntry : Entry :=
  { rating := some " 5 ", authorName := some "Ann "
  , updated := some "2024-01-02T00:00:00Z", published := some "2024-01-01T00:00:00Z"
  , title := some " Hi", content := some "Nice " }

/-- Entry whose updated element is present but empty. -/
def emptyUpdatedEntry : Entry :=
  { rating := some "5", authorName := none, updated := some ""
  , published := some "2024-03-04T05:06:07Z", title := none, content := none }

/-- Entry with a nonempty updated element and a published element. -/
def updEntry : Entry :=
  { rating := some " 4 ", authorName := some "cid"
  , updated := some "2024-05-06T07:08:09Z", published := some "1999-01-01T00:00:00Z"
  , title := some "t", content := some "c" }

/-- Rating-bearing entry with every text element absent. -/
def bareEntry : Entry :=
  { rating := some "3", authorName := none, updated := none
  , published := none, title := none, content := none }

/-- Entry with rating text 0, below the expected range. -/
def zeroRatingEntry : Entry :=
  { rating := some "0", authorName := some "z", updated := some "2020-01-01"
  , published := none, title := some "zero", content := some "low" }

/-- Entry with rating text 99, above the expected range. -/
def bigRatingEntry : Entry :=
  { rating := some "99", authorName := some "b", updated := some "2020-01-01"
  , published := none, title := some "big", content := some "high" }

/-- Helper: a whitespace character is not a digit. -/
theorem ws_not_digit {c : Char} (h : c.isWhitespace = true) : c.isDigit = false := by
  simp [Char.isWhitespace] at h
  rcases h with ((h | h) | h) | h <;> subst h <;> decide

/-- Helper: a whitespace character is not the letter i. -/
theorem ws_ne_i {c : Char} (h : c.isWhitespace = true) : c ≠ 'i' := by
  intro he
  subst he
  simp [Char.isWhitespace] at h

/-- Helper: a whitespace character is not the letter d. -/
theorem ws_ne_d {c : Char} (h : c.isWhitespace = true) : c ≠ 'd' := by
  intro he
  subst he
  simp [Char.isWhitespace] at h

/-- Helper: a digit is not whitespace. -/
theorem digit_not_ws {c : Char} (h : c.isDigit = true) : c.isWhitespace = false := by
  cases hw : c.isWhitespace with
  | false => rfl
  | true => rw [ws_not_digit hw] at h; exact absurd h (by decide)

/-- Helper: a digit is not the letter i. -/
theorem digit_ne_i {c : Char} (h : c.isDigit = true) : c ≠ 'i' := by
  intro he
  subst he
  exact absurd h (by decide)

/-- Helper: no match at a position that does not start with i. -/
theorem matchIdHere_of_ne {c : Char} (cs : List Char) (h : c ≠ 'i') :
    matchIdHere (c :: cs) = none := by
  cases cs with
  | nil => rfl
  | cons c2 rest => simp [matchIdHere, h]

/-- Helper: one unfolding step of the search. -/
theorem searchIdDigits_cons (c : Char) (cs : List Char) :
    searchIdDigits (c :: cs) =
      match matchIdHere (c :: cs) with
      | some ds => some ds
      | none => searchIdDigits cs := rfl

/-- Helper: the search skips a position that does not start with i. -/
theorem searchIdDigits_cons_of_ne {c : Char} (cs : List Char) (h : c ≠ 'i') :
    searchIdDigits (c :: cs) = searchIdDigits cs := by
  rw [searchIdDigits_cons, matchIdHere_of_ne cs h]

/-- Helper: the pattern never matches inside pure whitespace. -/
theorem searchIdDigits_ws_nil {w : List Char} (hw : ∀ c ∈ w, c.isWhitespace = true) :
    searchIdDigits w = none := by
  induction w with
  | nil => rfl
  | cons c cs ih =>
    rw [searchIdDigits_cons_of_ne cs (ws_ne_i (hw c (List.mem_cons_self c cs)))]
    exact ih fun x hx => hw x (List.mem_cons_of_mem c hx)

/-- Helper: a digit run is unchanged by a whitespace suffix. -/
theorem takeWhile_digit_append {w : List Char} (hw : ∀ c ∈ w, c.isWhitespace = true)
    (rest : List Char) :
    (rest ++ w).takeWhile Char.isDigit = rest.takeWhile Char.isDigit := by
  induction rest with
  | nil =>
    simp only [List.nil_append, List.takeWhile_nil]
    cases w with
    | nil => rfl
    | cons c cs =>
      rw [List.takeWhile_cons, ws_not_digit (hw c (List.mem_cons_self c cs))]
      rfl
  | cons c cs ih =>
    rw [List.cons_append, List.takeWhile_cons, List.takeWhile_cons]
    cases c.isDigit with
    | false => rfl
    | true => simp only [ih]

/-- Helper: a whitespace suffix does not change a match attempt. -/
theorem matchIdHere_append_ws {w : List Char} (hw : ∀ c ∈ w, c.isWhitespace = true)
    (l : List Char) : matchIdHere (l ++ w) = matchIdHere l := by
  match l with
  | [] =>
    simp only [List.nil_append]
    cases w with
    | nil => rfl
    | cons c cs => rw [matchIdHere_of_ne cs (ws_ne_i (hw c (List.mem_cons_self c cs)))]; rfl
  | [c] =>
    cases w with
    | nil => simp
    | cons c2 cs =>
      have h2 : c2 ≠ 'd' := ws_ne_d (hw c2 (List.mem_cons_self c2 cs))
      simp only [List.cons_append, List.nil_append, matchIdHere]
      rw [if_neg]
      intro hand
      exact h2 hand.2
  | c1 :: c2 :: rest =>
    simp only [List.cons_append, matchIdHere]
    rw [takeWhile_digit_append hw rest]

/-- Helper: a whitespace suffix does not change the search result. -/
theorem searchIdDigits_append_ws {w : List Char} (hw : ∀ c ∈ w, c.isWhitespace = true)
    (l : List Char) : searchIdDigits (l ++ w) = searchIdDigits l := by
  induction l with
  | nil => exact searchIdDigits_ws_nil hw
  | cons c cs ih =>
    rw [List.cons_append, searchIdDigits_cons, searchIdDigits_cons]
    rw [show (c :: (cs ++ w)) = (c :: cs) ++ w from rfl, matchIdHere_append_ws hw (c :: cs)]
    cases matchIdHere (c :: cs) with
    | some ds => rfl
    | none => simpa using ih

/-- Helper: leading whitespace does not change the search result. -/
theorem searchIdDigits_dropWhile_ws (l : List Char) :
    searchIdDigits (l.dropWhile Char.isWhitespace) = searchIdDigits l := by
  induction l with
  | nil => rfl
  | cons c cs ih =>
    rw [List.dropWhile_cons]
    cases hc : c.isWhitespace with
    | true => simpa [hc] using ih.trans (searchIdDigits_cons_of_ne cs (ws_ne_i hc)).symm
    | false => simp [hc]

/-- Helper: stripping does not change the search result. -/
theorem searchIdDigits_pyStrip (l : List Char) :
    searchIdDigits (pyStrip l) = searchIdDigits l := by
  have hmid : searchIdDigits (l.dropWhile Char.isWhitespace) = searchIdDigits l :=
    searchIdDigits_dropWhile_ws l
  set m := l.dropWhile Char.isWhitespace with hm
  have hsplit : m.reverse.takeWhile Char.isWhitespace ++ m.reverse.dropWhile Char.isWhitespace
      = m.reverse := List.takeWhile_append_dropWhile ..
  have hrev : m = (m.reverse.dropWhile Char.isWhitespace).reverse
      ++ (m.reverse.takeWhile Char.isWhitespace).reverse := by
    have := congrArg List.reverse hsplit
    rw [List.reverse_append, List.reverse_reverse] at this
    exact this.symm
  have hw : ∀ c ∈ (m.reverse.takeWhile Char.isWhitespace).reverse, c.isWhitespace = true := by
    intro c hc
    exact List.mem_takeWhile_imp (List.mem_reverse.mp hc)
  calc searchIdDigits (pyStrip l)
      = searchIdDigits ((m.reverse.dropWhile Char.isWhitespace).reverse) := rfl
    _ = searchIdDigits ((m.reverse.dropWhile Char.isWhitespace).reverse
          ++ (m.reverse.takeWhile Char.isWhitespace).reverse) :=
        (searchIdDigits_append_ws hw _).symm
    _ = searchIdDigits m := by rw [← hrev]
    _ = searchIdDigits l := hmid

/-- Helper: the pattern never matches inside a pure digit string. -/
theorem searchIdDigits_all_digit {l : List Char} (h : l.all Char.isDigit = true) :
    searchIdDigits l = none := by
  induction l with
  | nil => rfl
  | cons c cs ih =>
    simp only [List.all_cons, Bool.and_eq_true] at h
    rw [searchIdDigits_cons_of_ne cs (digit_ne_i h.1)]
    exact ih h.2

/-- Helper: stripping a pure digit string is the identity. -/
theorem pyStrip_all_digit {l : List Char} (h : l.all Char.isDigit = true) :
    pyStrip l = l := by
  have front : ∀ m : List Char, m.all Char.isDigit = true →
      m.dropWhile Char.isWhitespace = m := by
    intro m hm
    cases m with
    | nil => rfl
    | cons c cs =>
      simp only [List.all_cons, Bool.and_eq_true] at hm
      rw [List.dropWhile_cons, digit_not_ws hm.1]
      rfl
  unfold pyStrip
  rw [front l h, front l.reverse (by rwa [List.all_reverse]), List.reverse_reverse]

/-- Helper: stripping a digit-only string returns it unchanged. -/
theorem strip_of_pyIsDigit {s : String} (h : pyIsDigit s = true) : strip s = s := by
  have hall : s.data.all Char.isDigit = true := by
    simp only [pyIsDigit, Bool.and_eq_true] at h
    exact h.2
  show String.mk (pyStrip s.data) = s
  rw [pyStrip_all_digit hall]

/-- Claim C3 (corrected): a pure digit input is returned unchanged and an
input containing an embedded id-digits pattern yields exactly those digits,
but the resolver raises its invalid-input error if and only if the
whitespace-TRIMMED input is neither all digits nor contains the pattern:
the code strips the input first, so a digit string padded with whitespace
resolves instead of failing. -/
theorem extract_app_id_resolution (s : String) :
    (pyIsDigit s = true → extract_app_id s = .ok s) ∧
    (∀ ds, searchIdDigits s.data = some ds → extract_app_id s = .ok (String.mk ds)) ∧
    ((∃ msg, extract_app_id s = .error msg) ↔
      (pyIsDigit (strip s) = false ∧ searchIdDigits s.data = none)) ∧
    extract_app_id "https://apps.apple.com/us/app/x/id416048305" = .ok "416048305" := by
  have hsearch : searchIdDigits (strip s).data = searchIdDigits s.data :=
    searchIdDigits_pyStrip s.data
  refine ⟨?_, ?_, ?_, by decide⟩
  · intro h
    simp only [extract_app_id]
    rw [strip_of_pyIsDigit h, h]
    rfl
  · intro ds hds
    have hnd : pyIsDigit (strip s) = false := by
      cases hd : pyIsDigit (strip s) with
      | false => rfl
      | true =>
        have hnone : searchIdDigits (strip s).data = none :=
          searchIdDigits_all_digit
            (by simp only [pyIsDigit, Bool.and_eq_true] at hd; exact hd.2)
        rw [hsearch, hds] at hnone
        exact absurd hnone (by simp)
    simp only [extract_app_id, hnd, Bool.false_eq_true, if_false]
    rw [hsearch, hds]
  · constructor
    · rintro ⟨msg, hmsg⟩
      simp only [extract_app_id] at hmsg
      cases hd : pyIsDigit (strip s) with
      | true => rw [hd] at hmsg; simp at hmsg
      | false =>
        rw [hd] at hmsg
        simp only [Bool.false_eq_true, if_false] at hmsg
        cases hse : searchIdDigits (strip s).data with
        | some ds => rw [hse] at hmsg; simp at hmsg
        | none => exact ⟨rfl, by rw [← hsearch]; exact hse⟩
    · rintro ⟨h1, h2⟩
      refine ⟨"Cannot extract App ID from input.", ?_⟩
      simp only [extract_app_id, h1, Bool.false_eq_true, if_false]
      rw [hsearch, h2]

/-- Counterexample to claim C3 as stated: the input consisting of 123
surrounded by spaces is neither all digits nor contains an id-digits
pattern, yet the resolver returns ok 123 rather than raising. -/
theorem extract_app_id_untrimmed_digits :
    pyIsDigit " 123 " = false ∧ searchIdDigits (" 123 ").data = none ∧
    extract_app_id " 123 " = .ok "123" := by
  refine ⟨by decide, by decide, by decide⟩

/-- Witness for claim C3 at a concrete pattern-bearing input. -/
theorem extract_app_id_resolution_witness :
    extract_app_id "see id77 here" = .ok (String.mk ['7', '7']) :=
  (extract_app_id_resolution "see id77 here").2.1 ['7', '7'] (by decide)

/-- Helper: the or-empty default of a present text is the text itself. -/
theorem orEmpty_some (a : String) : orEmpty (some a) = a := by
  cases ha : a.isEmpty with
  | true =>
    rw [(String.isEmpty_iff a).mp ha]
    rfl
  | false => simp [orEmpty, pyOr, ha]

/-- Helper: on a document whose ratings all convert, parse_reviews returns the filterMap of rowOfEntry. -/
theorem parse_reviews_ok {entries : List Entry} (h : ∀ e ∈ entries, ratingParses e = true) :
    parse_reviews entries = .ok (entries.filterMap rowOfEntry) := by
  induction entries with
  | nil => rfl
  | cons e es ih =>
    have he := h e (List.mem_cons_self e es)
    have hes := fun x hx => h x (List.mem_cons_of_mem e hx)
    rw [List.filterMap_cons]
    cases hre : e.rating with
    | none =>
      rw [show rowOfEntry e = none from by simp [rowOfEntry, hre]]
      simp only [parse_reviews, hre]
      exact ih hes
    | some rs =>
      have hs : (pyInt (strip rs)).isSome = true := by
        simpa [ratingParses, hre] using he
      obtain ⟨n, hn⟩ := Option.isSome_iff_exists.mp hs
      rw [show rowOfEntry e = some (mkRow e n) from by simp [rowOfEntry, hre, hn]]
      simp only [parse_reviews, hre, hn, ih hes]

/-- Helper: one produced row per rating-bearing entry. -/
theorem filterMap_rowOfEntry_length {entries : List Entry}
    (h : ∀ e ∈ entries, ratingParses e = true) :
    (entries.filterMap rowOfEntry).length
      = (entries.filter fun e => e.rating.isSome).length := by
  induction entries with
  | nil => rfl
  | cons e es ih =>
    have he := h e (List.mem_cons_self e es)
    have hes := fun x hx => h x (List.mem_cons_of_mem e hx)
    rw [List.filterMap_cons, List.filter_cons]
    cases hre : e.rating with
    | none =>
      rw [show rowOfEntry e = none from by simp [rowOfEntry, hre]]
      simp [hre, ih hes]
    | some rs =>
      have hs : (pyInt (strip rs)).isSome = true := by
        simpa [ratingParses, hre] using he
      obtain ⟨n, hn⟩ := Option.isSome_iff_exists.mp hs
      rw [show rowOfEntry e = some (mkRow e n) from by simp [rowOfEntry, hre, hn]]
      simp [hre, ih hes]

/-- Claim C4 (corrected): for every feed document whose rating texts all
convert as integers, the parser returns exactly one record per
rating-bearing entry, in document order, and entries without a rating
produce no record and no error.  The integer-conversion proviso is forced:
a rating-bearing entry whose rating text is not an integer literal aborts
the whole parse. -/
theorem parse_reviews_counts (entries : List Entry)
    (h : ∀ e ∈ entries, ratingParses e = true) :
    parse_reviews entries = .ok (entries.filterMap rowOfEntry) ∧
    (entries.filterMap rowOfEntry).length
      = (entries.filter fun e => e.rating.isSome).length :=
  ⟨parse_reviews_ok h, filterMap_rowOfEntry_length h⟩

/-- Counterexample to claim C4 as stated: a document with one
rating-bearing entry whose rating text is the word five makes the parser
raise instead of returning one record. -/
theorem parse_reviews_nonint_rating_aborts :
    badEntry.rating.isSome = true ∧
    ([badEntry].filter fun e => e.rating.isSome).length = 1 ∧
    parse_reviews [badEntry] = .error "invalid literal for int with base 10: five" := by
  refine ⟨by decide, by decide, by decide⟩

/-- Witness for claim C4 on a two-entry document with one metadata entry. -/
theorem parse_reviews_counts_witness :
    parse_reviews [metaEntry, goodEntry] = .ok ([metaEntry, goodEntry].filterMap rowOfEntry) ∧
    ([metaEntry, goodEntry].filterMap rowOfEntry).length
      = ([metaEntry, goodEntry].filter fun e => e.rating.isSome).length :=
  parse_reviews_counts [metaEntry, goodEntry] (by decide)

/-- Helper: parse_reviews on a single convertible rating-bearing entry. -/
theorem parse_reviews_singleton {e : Entry} {rs : String} (n : Int)
    (h1 : e.rating = some rs) (hn : pyInt (strip rs) = some n) :
    parse_reviews [e] = .ok [mkRow e n] := by
  have h : ∀ x ∈ [e], ratingParses x = true := by
    intro x hx
    rw [List.mem_singleton] at hx
    subst hx
    simp [ratingParses, h1, hn]
  rw [parse_reviews_ok h]
  simp [rowOfEntry, h1, hn]

/-- Claim C5 (corrected): the timestamp of a record is the trimmed updated
field when that field is present AND NONEMPTY, otherwise the trimmed
published field when present, otherwise empty.  The original claim fails
because Python or treats an empty updated text as falsy, so published is
used although updated exists. -/
theorem timestamp_prefers_nonempty_updated (e : Entry) (rs : String)
    (h1 : e.rating = some rs) (h2 : (pyInt (strip rs)).isSome = true) :
    ∃ r, parse_reviews [e] = .ok [r] ∧
      (∀ u, e.updated = some u → u.isEmpty = false → r.published_at = strip u) ∧
      ((e.updated = none ∨ e.updated = some "") →
        ∀ p, e.published = some p → r.published_at = strip p) ∧
      ((e.updated = none ∨ e.updated = some "") → e.published = none →
        r.published_at = "") := by
  obtain ⟨n, hn⟩ := Option.isSome_iff_exists.mp h2
  refine ⟨mkRow e n, parse_reviews_singleton n h1 hn, ?_, ?_, ?_⟩
  · intro u hu hne
    simp [mkRow, pyOr, hu, hne, orEmpty_some]
  · rintro (hup | hup) p hp <;>
      simp [mkRow, pyOr, hup, hp, orEmpty_some, show ("" : String).isEmpty = true from rfl]
  · rintro (hup | hup) hp <;>
      simp [mkRow, pyOr, orEmpty, hup, hp, show ("" : String).isEmpty = true from rfl] <;> rfl

/-- Counterexample to claim C5 as stated: an entry whose updated element
is present but empty produces a record whose timestamp comes from the
published element. -/
theorem timestamp_empty_updated_uses_published :
    emptyUpdatedEntry.updated = some "" ∧
    emptyUpdatedEntry.published = some "2024-03-04T05:06:07Z" ∧
    parse_reviews [emptyUpdatedEntry] = .ok
      [{ username := "", published_at := "2024-03-04T05:06:07Z", rating := 5
       , title := "", content := "" }] := by
  refine ⟨by decide, by decide, by decide⟩

/-- Witness for claim C5 at an entry carrying both timestamp fields. -/
theorem timestamp_prefers_nonempty_updated_witness :
    ∃ r, parse_reviews [updEntry] = .ok [r] ∧
      (∀ u, updEntry.updated = some u → u.isEmpty = false → r.published_at = strip u) ∧
      ((updEntry.updated = none ∨ updEntry.updated = some "") →
        ∀ p, updEntry.published = some p → r.published_at = strip p) ∧
      ((updEntry.updated = none ∨ updEntry.updated = some "") → updEntry.published = none →
        r.published_at = "") :=
  timestamp_prefers_nonempty_updated updEntry " 4 " (by decide) (by decide)

/-- Claim C6 (confirmed): a rating-bearing entry missing its author name,
title or content element yields the empty string for that field rather than
failing, and every extracted text field is the stripped source text. -/
theorem missing_fields_default_empty (e : Entry) (rs : String)
    (h1 : e.rating = some rs) (h2 : (pyInt (strip rs)).isSome = true) :
    ∃ r, parse_reviews [e] = .ok [r] ∧
      (e.authorName = none → r.username = "") ∧
      (e.title = none → r.title = "") ∧
      (e.content = none → r.content = "") ∧
      (∀ a, e.authorName = some a → r.username = strip a) ∧
      (∀ t, e.title = some t → r.title = strip t) ∧
      (∀ c, e.content = some c → r.content = strip c) := by
  obtain ⟨n, hn⟩ := Option.isSome_iff_exists.mp h2
  refine ⟨mkRow e n, parse_reviews_singleton n h1 hn, ?_, ?_, ?_, ?_, ?_, ?_⟩
  · intro ha
    simp [mkRow, orEmpty, pyOr, ha]
    rfl
  · intro ht
    simp [mkRow, orEmpty, pyOr, ht]
    rfl
  · intro hc
    simp [mkRow, orEmpty, pyOr, hc]
    rfl
  · intro a ha
    simp [mkRow, ha, orEmpty_some]
  · intro t ht
    simp [mkRow, ht, orEmpty_some]
  · intro c hc
    simp [mkRow, hc, orEmpty_some]

/-- Witness for claim C6 at an entry with every text element absent. -/
theorem missing_fields_default_empty_witness :
    ∃ r, parse_reviews [bareEntry] = .ok [r] ∧
      (bareEntry.authorName = none → r.username = "") ∧
      (bareEntry.title = none → r.title = "") ∧
      (bareEntry.content = none → r.content = "") ∧
      (∀ a, bareEntry.authorName = some a → r.username = strip a) ∧
      (∀ t, bareEntry.title = some t → r.title = strip t) ∧
      (∀ c, bareEntry.content = some c → r.content = strip c) :=
  missing_fields_default_empty bareEntry "3" (by decide) (by decide)

/-- Claim C9 (confirmed): the parser accepts any integer-valued rating
text, producing records with ratings 0 and 99 without range enforcement,
and a rating-bearing entry whose rating text is not an integer literal
makes the integer conversion raise, aborting the parse of the whole
document. -/
theorem rating_range_not_enforced :
    (∃ r, parse_reviews [zeroRatingEntry] = .ok [r] ∧ r.rating = 0) ∧
    (∃ r, parse_reviews [bigRatingEntry] = .ok [r] ∧ r.rating = 99) ∧
    (∀ entries e rs, e ∈ entries → e.rating = some rs → pyInt (strip rs) = none →
      ∃ msg, parse_reviews entries = .error msg) := by
  refine ⟨⟨{ username := "z", published_at := "2020-01-01", rating := 0
           , title := "zero", content := "low" }, by decide, by decide⟩,
          ⟨{ username := "b", published_at := "2020-01-01", rating := 99
           , title := "big", content := "high" }, by decide, by decide⟩, ?_⟩
  intro entries
  induction entries with
  | nil => intro e rs hmem; exact absurd hmem (List.not_mem_nil e)
  | cons hd tl ih =>
    intro e rs hmem h1 h2
    rcases List.mem_cons.mp hmem with rfl | hmemtl
    · refine ⟨"invalid literal for int with base 10: " ++ strip rs, ?_⟩
      simp only [parse_reviews, h1, h2]
    · cases hhd : hd.rating with
      | none =>
        obtain ⟨msg, hmsg⟩ := ih e rs hmemtl h1 h2
        refine ⟨msg, ?_⟩
        simp only [parse_reviews, hhd, hmsg]
      | some rs2 =>
        cases hp2 : pyInt (strip rs2) with
        | none =>
          refine ⟨"invalid literal for int with base 10: " ++ strip rs2, ?_⟩
          simp only [parse_reviews, hhd, hp2]
        | some n2 =>
          obtain ⟨msg, hmsg⟩ := ih e rs hmemtl h1 h2
          refine ⟨msg, ?_⟩
          simp only [parse_reviews, hhd, hp2, hmsg]

/-- Witness for claim C9: a document whose second entry has the rating
text 4.5 aborts the whole parse. -/
theorem rating_range_not_enforced_witness :
    ∃ msg, parse_reviews [goodEntry, fracEntry] = .error msg :=
  rating_range_not_enforced.2.2 [goodEntry, fracEntry] fracEntry "4.5"
    (by decide) (by decide) (by decide)

/-- Helper: membership in the deduplication accumulator. -/
theorem mem_dropDupAux {α : Type} [DecidableEq α] {x : α} :
    ∀ (l seen : List α), x ∈ dropDupAux seen l ↔ x ∈ l ∧ x ∉ seen := by
  intro l
  induction l with
  | nil => intro seen; simp [dropDupAux]
  | cons y ys ih =>
    intro seen
    by_cases hy : y ∈ seen
    · simp only [dropDupAux, if_pos hy, ih seen, List.mem_cons]
      constructor
      · rintro ⟨hx, hns⟩
        exact ⟨Or.inr hx, hns⟩
      · rintro ⟨h | hx, hns⟩
        · subst h; exact absurd hy hns
        · exact ⟨hx, hns⟩
    · simp only [dropDupAux, if_neg hy, List.mem_cons, ih (y :: seen)]
      constructor
      · rintro (rfl | ⟨hx, hns⟩)
        · exact ⟨Or.inl rfl, hy⟩
        · exact ⟨Or.inr hx, fun hc => hns (Or.inr hc)⟩
      · rintro ⟨h | hx, hns⟩
        · exact Or.inl h
        · by_cases hxy : x = y
          · exact Or.inl hxy
          · exact Or.inr ⟨hx, fun hc => hc.elim hxy hns⟩

/-- Helper: the deduplicated list has no duplicates. -/
theorem nodup_dropDupAux {α : Type} [DecidableEq α] :
    ∀ (l seen : List α), (dropDupAux seen l).Nodup := by
  intro l
  induction l with
  | nil => intro seen; simp [dropDupAux]
  | cons y ys ih =>
    intro seen
    by_cases hy : y ∈ seen
    · simpa only [dropDupAux, if_pos hy] using ih seen
    · simp only [dropDupAux, if_neg hy]
      refine List.nodup_cons.mpr ⟨?_, ih (y :: seen)⟩
      intro hc
      exact ((mem_dropDupAux ys (y :: seen)).mp hc).2 (List.mem_cons_self y seen)

/-- Helper: deduplication only removes elements, keeping relative order. -/
theorem sublist_dropDupAux {α : Type} [DecidableEq α] :
    ∀ (l seen : List α), (dropDupAux seen l).Sublist l := by
  intro l
  induction l with
  | nil => intro seen; simp [dropDupAux]
  | cons y ys ih =>
    intro seen
    by_cases hy : y ∈ seen
    · simp only [dropDupAux, if_pos hy]
      exact (ih seen).cons y
    · simp only [dropDupAux, if_neg hy]
      exact (ih (y :: seen)).cons₂ y

/-- Helper: deduplicating a longer accumulation only appends further rows
after the rows produced by the shorter one. -/
theorem dropDupAux_append_pre {α : Type} [DecidableEq α] :
    ∀ (l₁ l₂ seen : List α), ∃ t, dropDupAux seen l₁ ++ t = dropDupAux seen (l₁ ++ l₂) := by
  intro l₁
  induction l₁ with
  | nil => intro l₂ seen; exact ⟨dropDupAux seen l₂, rfl⟩
  | cons y ys ih =>
    intro l₂ seen
    rw [List.cons_append]
    by_cases hy : y ∈ seen
    · simp only [dropDupAux, if_pos hy]
      exact ih l₂ seen
    · simp only [dropDupAux, if_neg hy]
      obtain ⟨t, ht⟩ := ih l₂ (y :: seen)
      exact ⟨t, by rw [List.cons_append, ht]⟩

/-- Claim C7 (confirmed): rows equal on all five fields collapse to a
single output row of drop_duplicates (each accumulated row occurs exactly
once in the output), rows differing in any field are all kept (membership
is preserved both ways), and row equality is exactly agreement on the five
fields. -/
theorem dedup_collapses_equal_rows (l : List Row) :
    (∀ x ∈ l, (drop_duplicates l).count x = 1) ∧
    (∀ x, x ∈ drop_duplicates l ↔ x ∈ l) ∧
    (∀ r s : Row, r.username = s.username → r.published_at = s.published_at →
      r.rating = s.rating → r.title = s.title → r.content = s.content → r = s) := by
  have hmem : ∀ x : Row, x ∈ drop_duplicates l ↔ x ∈ l := by
    intro x
    rw [drop_duplicates, mem_dropDupAux l []]
    simp
  refine ⟨?_, hmem, ?_⟩
  · intro x hx
    exact List.count_eq_one_of_mem (nodup_dropDupAux l []) ((hmem x).mpr hx)
  · intro r s h1 h2 h3 h4 h5
    cases r
    cases s
    simp_all

/-- Witness for claim C7 on a list with a duplicated row. -/
theorem dedup_collapses_equal_rows_witness :
    (drop_duplicates [rA, rA, rB]).count rA = 1 ∧ rB ∈ drop_duplicates [rA, rA, rB] :=
  ⟨(dedup_collapses_equal_rows [rA, rA, rB]).1 rA (by decide),
   ((dedup_collapses_equal_rows [rA, rA, rB]).2.1 rB).mpr (by decide)⟩

/-- Claim C10 (confirmed): drop_duplicates keeps the first occurrence of
each duplicated row: the output is a sublist of the accumulation (so rows
appear in accumulation order), rows produced from an earlier accumulation
are a prefix of the output of any extension (a later duplicate never
displaces or reorders an earlier row), every row is represented, and the
output has no duplicates. -/
theorem dedup_keeps_first_occurrences (l₁ l₂ : List Row) :
    (drop_duplicates (l₁ ++ l₂)).Sublist (l₁ ++ l₂) ∧
    (∃ t, drop_duplicates l₁ ++ t = drop_duplicates (l₁ ++ l₂)) ∧
    (∀ x ∈ l₁, x ∈ drop_duplicates l₁) ∧
    (drop_duplicates (l₁ ++ l₂)).Nodup := by
  refine ⟨sublist_dropDupAux (l₁ ++ l₂) [], dropDupAux_append_pre l₁ l₂ [],
    ?_, nodup_dropDupAux (l₁ ++ l₂) []⟩
  intro x hx
  rw [drop_duplicates, mem_dropDupAux l₁ []]
  simp [hx]

/-- Witness for claim C10 on a two-page accumulation with overlap. -/
theorem dedup_keeps_first_occurrences_witness :
    (drop_duplicates ([rA, rB] ++ [rB, rA])).Sublist ([rA, rB] ++ [rB, rA]) ∧
    (∃ t, drop_duplicates [rA, rB] ++ t = drop_duplicates ([rA, rB] ++ [rB, rA])) ∧
    (∀ x ∈ [rA, rB], x ∈ drop_duplicates [rA, rB]) ∧
    (drop_duplicates ([rA, rB] ++ [rB, rA])).Nodup :=
  dedup_keeps_first_occurrences [rA, rB] [rB, rA]

/-- Helper: the fetched page numbers form a consecutive range. -/
theorem fetchLoop_fst_range (pages : Nat → List Row) :
    ∀ (fuel page : Nat), ∃ k, k ≤ fuel ∧ (fetchLoop pages page fuel).1 = List.range' page k := by
  intro fuel
  induction fuel with
  | zero => intro page; exact ⟨0, Nat.le_refl 0, rfl⟩
  | succ f ih =>
    intro page
    by_cases hp : pages page = []
    · refine ⟨1, Nat.succ_le_succ (Nat.zero_le f), ?_⟩
      simp [fetchLoop, hp, List.range'_succ]
    · obtain ⟨k, hk, hfst⟩ := ih (page + 1)
      refine ⟨k + 1, Nat.succ_le_succ hk, ?_⟩
      simp [fetchLoop, hp, List.range'_succ, hfst]

/-- Helper: bounds on every fetched page number. -/
theorem mem_fetchLoop_fst_bounds (pages : Nat → List Row) :
    ∀ (fuel page q : Nat), q ∈ (fetchLoop pages page fuel).1 →
      page ≤ q ∧ q < page + fuel := by
  intro fuel
  induction fuel with
  | zero => intro page q hq; exact absurd hq (List.not_mem_nil q)
  | succ f ih =>
    intro page q hq
    by_cases hp : pages page = []
    · rw [show (fetchLoop pages page (f + 1)).1 = [page] from by simp [fetchLoop, hp]] at hq
      rw [List.mem_singleton] at hq
      subst hq
      exact ⟨Nat.le_refl q, Nat.lt_add_of_pos_right (Nat.succ_pos f)⟩
    · rw [show (fetchLoop pages page (f + 1)).1
          = page :: (fetchLoop pages (page + 1) f).1 from by simp [fetchLoop, hp]] at hq
      rcases List.mem_cons.mp hq with rfl | hq
      · exact ⟨Nat.le_refl q, Nat.lt_add_of_pos_right (Nat.succ_pos f)⟩
      · obtain ⟨h1, h2⟩ := ih (page + 1) q hq
        refine ⟨Nat.le_of_succ_le h1, ?_⟩
        calc q < page + 1 + f := h2
          _ = page + (f + 1) := by omega

/-- Helper: a page that parses empty is the last page fetched. -/
theorem fetchLoop_empty_is_last (pages : Nat → List Row) :
    ∀ (fuel page q : Nat), q ∈ (fetchLoop pages page fuel).1 → pages q = [] →
      ∀ r ∈ (fetchLoop pages page fuel).1, r ≤ q := by
  intro fuel
  induction fuel with
  | zero => intro page q hq; exact absurd hq (List.not_mem_nil q)
  | succ f ih =>
    intro page q hq hqe r hr
    by_cases hp : pages page = []
    · rw [show (fetchLoop pages page (f + 1)).1 = [page] from by simp [fetchLoop, hp]] at hq hr
      rw [List.mem_singleton] at hq hr
      subst hq
      subst hr
      exact Nat.le_refl _
    · rw [show (fetchLoop pages page (f + 1)).1
          = page :: (fetchLoop pages (page + 1) f).1 from by simp [fetchLoop, hp]] at hq hr
      rcases List.mem_cons.mp hq with rfl | hq
      · exact absurd hqe hp
      · rcases List.mem_cons.mp hr with rfl | hr
        · exact Nat.le_of_succ_le (mem_fetchLoop_fst_bounds pages f (r + 1) q hq).1
        · exact ih (page + 1) q hq hqe r hr

/-- Helper: one unfolding step of the page loop. -/
theorem fetchLoop_step (pages : Nat → List Row) (p f : Nat) :
    fetchLoop pages p (f + 1)
      = if pages p = [] then ([p], []) else
          (p :: (fetchLoop pages (p + 1) f).1, pages p ++ (fetchLoop pages (p + 1) f).2) := by
  by_cases hp : pages p = [] <;> simp [fetchLoop, hp]

/-- Claim C2 (confirmed): the loop fetches consecutive page numbers
starting at 1, every fetched page number is at most MAX_PAGES, a page that
parses to zero records is the last page fetched, and in the concrete
scenario where page 1 yields 50 records and page 2 yields none the loop
stops after page 2 with the accumulator holding exactly the records of
page 1. -/
theorem loop_pages_consecutive_bounded (pages : Nat → List Row) :
    (runLoop pages).1 = List.range' 1 ((runLoop pages).1.length) ∧
    (∀ q ∈ (runLoop pages).1, 1 ≤ q ∧ q ≤ MAX_PAGES) ∧
    (∀ q ∈ (runLoop pages).1, pages q = [] → ∀ r ∈ (runLoop pages).1, r ≤ q) ∧
    ((pages 1).length = 50 → pages 2 = [] →
      (runLoop pages).1 = [1, 2] ∧ (runLoop pages).2 = pages 1) := by
  refine ⟨?_, ?_, fetchLoop_empty_is_last pages MAX_PAGES 1, ?_⟩
  · obtain ⟨k, hk, hfst⟩ := fetchLoop_fst_range pages MAX_PAGES 1
    rw [runLoop, hfst, List.length_range']
  · intro q hq
    obtain ⟨h1, h2⟩ := mem_fetchLoop_fst_bounds pages MAX_PAGES 1 q hq
    rw [show MAX_PAGES = 10 from rfl] at h2 ⊢
    exact ⟨h1, by omega⟩
  · intro h50 h2
    have h1ne : pages 1 ≠ [] := fun h => by rw [h] at h50; simp at h50
    have hrun : runLoop pages = ([1, 2], pages 1) := by
      calc runLoop pages = fetchLoop pages 1 (9 + 1) := rfl
        _ = (1 :: (fetchLoop pages 2 (8 + 1)).1, pages 1 ++ (fetchLoop pages 2 (8 + 1)).2) := by
            rw [fetchLoop_step pages 1 (8 + 1), if_neg h1ne]
        _ = ([1, 2], pages 1) := by
            rw [fetchLoop_step pages 2 8, if_pos h2]
            simp
    exact ⟨by rw [hrun], by rw [hrun]⟩

/-- Witness for claim C2 on fifty records on page one and nothing after. -/
theorem loop_pages_consecutive_bounded_witness :
    (runLoop wPages).1 = [1, 2] ∧ (runLoop wPages).2 = wPages 1 :=
  (loop_pages_consecutive_bounded wPages).2.2.2 (by simp [wPages]) (by simp [wPages])

/-- Helper: exporting without an index column maps each row to its cells. -/
theorem enum_map_cells {D : Type} (l : List (OutRow D)) :
    l.enum.map (fun p => rowCells p.2) = l.map rowCells := by
  rw [show (fun p : Nat × OutRow D => rowCells p.2) = rowCells ∘ Prod.snd from rfl,
      ← List.map_map, List.enum_map_snd]

/-- Helper: when the accumulator is nonempty, main deduplicates, coerces
the timestamp column and writes the five-column sheet with no index
column. -/
theorem mainRun_eq_ok {D : Type} (parse : String → Option D) (pages : Nat → List Row)
    (h : (runLoop pages).2 ≠ []) :
    mainRun parse pages = .ok
      { outputFile := OUTPUT_FILE
      , sheet := { header := REVIEW_COLUMNS
                 , cells := (drop_duplicates (runLoop pages).2).map
                     fun r => rowCells (coerceRow parse r) } } := by
  have happ : extract_app_id APP_URL = .ok "416048305" := by decide
  have hne : ((runLoop pages).2).isEmpty = false := by
    cases hl : (runLoop pages).2 with
    | nil => exact absurd hl h
    | cons a l => rfl
  simp only [mainRun, happ]
  simp only [coercePublishedAt, frameDropDuplicates, pdDataFrame, hne,
    Bool.false_eq_true, if_false]
  rw [if_pos (show "published_at" ∈ REVIEW_COLUMNS by decide)]
  simp only [to_excel, Bool.false_eq_true, if_false, List.nil_append]
  rw [enum_map_cells, List.map_map]
  rfl

/-- Claim C1 (corrected): for every run whose accumulator is NONEMPTY, the
orchestrator deduplicates the accumulated records, coerces the timestamp
field, and writes the table to the configured output path with exactly the
columns username, published_at, rating, title, content and no row index
column.  The original claim also covered the empty-accumulator run, but
there the DataFrame has no columns and reading the published_at column
raises a KeyError instead of writing a file. -/
theorem main_writes_deduped_table (D : Type) (parse : String → Option D)
    (pages : Nat → List Row) (h : (runLoop pages).2 ≠ []) :
    mainRun parse pages = .ok
      { outputFile := OUTPUT_FILE
      , sheet := { header := REVIEW_COLUMNS
                 , cells := (drop_duplicates (runLoop pages).2).map
                     fun r => rowCells (coerceRow parse r) } } :=
  mainRun_eq_ok parse pages h

/-- Counterexample to claim C1 as stated: when the very first page parses
to zero records the run raises a missing-column error instead of writing
an empty spreadsheet. -/
theorem main_empty_accumulator_errors :
    mainRun noParse (fun _ => []) = .error "KeyError: published_at" := by decide

/-- Witness for claim C1 on a concrete one-page run with a duplicate. -/
theorem main_writes_deduped_table_witness :
    mainRun noParse c1Pages = .ok
      { outputFile := OUTPUT_FILE
      , sheet := { header := REVIEW_COLUMNS
                 , cells := (drop_duplicates (runLoop c1Pages).2).map
                     fun r => rowCells (coerceRow noParse r) } } :=
  main_writes_deduped_table Unit noParse c1Pages (by decide)

/-- Claim C8 (confirmed): every accumulated record whose timestamp the
date parser rejects still appears in the written sheet, with the missing
marker in the timestamp column, and the run completes with an ok result:
coercion failure is never propagated as an error. -/
theorem unparseable_timestamp_null (D : Type) (parse : String → Option D)
    (pages : Nat → List Row) (r : Row) (hr : r ∈ (runLoop pages).2)
    (hp : parse r.published_at = none) :
    ∃ res, mainRun parse pages = .ok res ∧
      rowCells (coerceRow parse r) ∈ res.sheet.cells ∧
      (coerceRow parse r).published_at = none := by
  have hne : (runLoop pages).2 ≠ [] := fun he => by
    rw [he] at hr
    exact absurd hr (List.not_mem_nil r)
  refine ⟨_, mainRun_eq_ok parse pages hne, ?_, hp⟩
  have hmem : r ∈ drop_duplicates (runLoop pages).2 := by
    rw [drop_duplicates, mem_dropDupAux _ []]
    simp [hr]
  exact List.mem_map_of_mem _ hmem

/-- Witness for claim C8 on a concrete run where no timestamp parses. -/
theorem unparseable_timestamp_null_witness :
    ∃ res, mainRun noParse c1Pages = .ok res ∧
      rowCells (coerceRow noParse rA) ∈ res.sheet.cells ∧
      (coerceRow noParse rA).published_at = none :=
  unparseable_timestamp_null Unit noParse c1Pages rA (by decide) rfl
